import Mathlib

/-
Verification of the transaction-reconciliation core of the repository
(src/python/main.py): fee calculation, input resolution, output
classification, and report serialization, as a shallow embedding.

Modelling conventions:
* JSON-decoded monetary values are Python `decimal.Decimal` objects
  (the RPC layer parses JSON numbers with `parse_float=Decimal`); they are
  modelled by `Dec` below, an integer mantissa together with a count of
  fractional digits.  Arithmetic on them in this program never exceeds the
  28-significant-digit context, so Python's `+`/`-` are exact and are
  modelled exactly.
* Fallible Python operations (dictionary lookup, list indexing, RPC calls)
  are modelled in an error monad `Except Err`; the RPC node is an oracle
  record `Client` of stateless functions, mirroring the decoded-transaction
  accessor injected into the resolver.
* Python `str` values are Lean `String`; f-string interpolation of a
  `Decimal` is `decStr` (a faithful model of CPython `Decimal.__str__`
  restricted to non-positive exponents, the only ones arising here) and of
  an `int` is `intStr`.
-/

namespace Recon

/-- Errors a pipeline step can raise: a node-reported JSON-RPC fault, a
missing dictionary key, or an out-of-range list index. -/
inductive Err where
  | jsonRpc (msg : String)
  | keyError (key : String)
  | indexError
deriving DecidableEq, Repr

/-- A decimal amount: value is `num / 10 ^ exp`.  Models a Python
`decimal.Decimal` with exponent `-exp` (all amounts in this program have
non-positive Decimal exponents). -/
structure Dec where
  num : Int
  exp : Nat
deriving DecidableEq, Repr

/-- The Decimal with value `n` and no fractional digits (also the Python
int `n` where it meets Decimal arithmetic). -/
def Dec.ofInt (n : Int) : Dec := ⟨n, 0⟩

/-- Python `Decimal` addition: align to the smaller exponent (the larger
fractional-digit count) and add mantissas; exact at this program's scale. -/
def Dec.add (a b : Dec) : Dec :=
  let e := max a.exp b.exp
  ⟨a.num * (10 : Int) ^ (e - a.exp) + b.num * (10 : Int) ^ (e - b.exp), e⟩

/-- Python `Decimal` subtraction, aligned like `Dec.add`. -/
def Dec.sub (a b : Dec) : Dec :=
  let e := max a.exp b.exp
  ⟨a.num * (10 : Int) ^ (e - a.exp) - b.num * (10 : Int) ^ (e - b.exp), e⟩

/-- The rational value of a decimal amount. -/
def Dec.val (d : Dec) : ℚ := (d.num : ℚ) / (10 : ℚ) ^ d.exp

/-- Python `is_integer` on an amount: true when the value is a whole
number. -/
def Dec.isInteger (d : Dec) : Bool := d.num % (10 : Int) ^ d.exp == 0

/-- Python `int(...)` on an amount: truncation toward zero. -/
def Dec.toIntTrunc (d : Dec) : Int := d.num.tdiv ((10 : Int) ^ d.exp)

/-- The `scriptPubKey` object of a decoded output: the `addresses` key may
be absent (`none`), mirroring the dictionary membership test in the code. -/
structure ScriptPubKey where
  addresses : Option (List String)
deriving DecidableEq, Repr

/-- A decoded transaction output: a `value` and a `scriptPubKey`. -/
structure Output where
  value : Dec
  scriptPubKey : ScriptPubKey
deriving DecidableEq, Repr

/-- A decoded transaction input: the prior transaction id and the index of
the spent output within it. -/
structure Vin where
  txid : String
  vout : Nat
deriving DecidableEq, Repr

/-- A decoded transaction: ordered inputs and outputs. -/
structure Transaction where
  vin : List Vin
  vout : List Output
deriving DecidableEq, Repr

/-- Block metadata returned by `getblock`; the program reads its height. -/
structure Block where
  height : Int
deriving DecidableEq, Repr

/-- The RPC node as an oracle of stateless fallible functions, one per RPC
method the program calls.  Wallet-scoped methods take the wallet name as
their first argument. -/
structure Client where
  getblockchaininfo : Except Err String
  listwallets : Except Err (List String)
  loadwallet : String → Except Err String
  createwallet : String → Except Err String
  getnewaddress : String → String → Except Err String
  generatetoaddress : Nat → String → Except Err (List String)
  getbalance : String → Except Err Dec
  sendtoaddress : String → String → Nat → Except Err String
  getmempoolentry : String → Except Err String
  getrawtransaction : String → Except Err String
  decoderawtransaction : String → Except Err Transaction
  getblock : String → Except Err Block

/-- Python list indexing `l[i]` for a non-negative index: `IndexError` when
out of range. -/
def listIdx {α : Type} : List α → Nat → Except Err α
  | [], _ => Except.error Err.indexError
  | a :: _, 0 => Except.ok a
  | _ :: l, n + 1 => listIdx l n

/-- The summation loop of `calculate_transaction_fee`: for each input,
fetch and decode the prior transaction, index its outputs by the input's
`vout`, and accumulate the referenced output's value. -/
def feeInputLoop (client : Client) : List Vin → Dec → Except Err Dec
  | [], acc => Except.ok acc
  | vin :: rest, acc =>
    match client.getrawtransaction vin.txid with
    | Except.error e => Except.error e
    | Except.ok prev_tx =>
      match client.decoderawtransaction prev_tx with
      | Except.error e => Except.error e
      | Except.ok prev_decoded =>
        match listIdx prev_decoded.vout vin.vout with
        | Except.error e => Except.error e
        | Except.ok prev_output => feeInputLoop client rest (Dec.add acc prev_output.value)

/-- `calculate_transaction_fee(client, decoded_tx)` from src/python/main.py:
sums resolved input values into `total_input`, sums declared output values
into `total_output`, and returns `total_output - total_input`. -/
def calculate_transaction_fee (client : Client) (decoded_tx : Transaction) : Except Err Dec :=
  match feeInputLoop client decoded_tx.vin (Dec.ofInt 0) with
  | Except.error e => Except.error e
  | Except.ok total_input =>
    Except.ok (Dec.sub (decoded_tx.vout.foldl (fun acc o => Dec.add acc o.value) (Dec.ofInt 0))
      total_input)

/-- `extract_input_details(client, decoded_tx)` from src/python/main.py:
takes the first input, fetches and decodes its prior transaction, indexes
that transaction's outputs, and returns the output's first address and its
value.  A missing `addresses` key is Python's `KeyError`; indexing an empty
list or a missing first input is `IndexError`. -/
def extract_input_details (client : Client) (decoded_tx : Transaction) :
    Except Err (String × Dec) :=
  match decoded_tx.vin with
  | [] => Except.error Err.indexError
  | first_vin :: _ =>
    match client.getrawtransaction first_vin.txid with
    | Except.error e => Except.error e
    | Except.ok prev_tx =>
      match client.decoderawtransaction prev_tx with
      | Except.error e => Except.error e
      | Except.ok prev_decoded =>
        match listIdx prev_decoded.vout first_vin.vout with
        | Except.error e => Except.error e
        | Except.ok prev_output =>
          match prev_output.scriptPubKey.addresses with
          | none => Except.error (Err.keyError "addresses")
          | some [] => Except.error Err.indexError
          | some (a :: _) => Except.ok (a, prev_output.value)

/-- The loop of `extract_output_details`, with the mutable state
`(change_address, change_amount, trader_amount)` made explicit.  An output
without an `addresses` key is skipped; one whose addresses contain the
trader address sets `trader_amount`; any other addressed output overwrites
the change fields with its first address and its value (indexing an empty
address list is Python's `IndexError`). -/
def extractOutputsLoop (trader_address : String) :
    List Output → String × Dec × Dec → Except Err (String × Dec × Dec)
  | [], st => Except.ok st
  | o :: rest, (change_address, change_amount, trader_amount) =>
    match o.scriptPubKey.addresses with
    | none => extractOutputsLoop trader_address rest (change_address, change_amount, trader_amount)
    | some addrs =>
      if addrs.contains trader_address then
        extractOutputsLoop trader_address rest (change_address, change_amount, o.value)
      else
        match addrs with
        | [] => Except.error Err.indexError
        | a :: _ => extractOutputsLoop trader_address rest (a, o.value, trader_amount)

/-- `extract_output_details(decoded_tx, trader_address)` from
src/python/main.py: iterates the outputs starting from
`trader_amount = 0`, `change_amount = 0`, `change_address = ""` and returns
`(change_address, change_amount, trader_amount)`. -/
def extract_output_details (decoded_tx : Transaction) (trader_address : String) :
    Except Err (String × Dec × Dec) :=
  extractOutputsLoop trader_address decoded_tx.vout ("", Dec.ofInt 0, Dec.ofInt 0)

/-- Decimal digit characters of a natural number, most significant first;
structural recursion on a fuel argument that is always sufficient. -/
def natCharsAux : Nat → Nat → List Char
  | 0, _ => []
  | fuel + 1, n =>
    if n = 0 then [] else natCharsAux fuel (n / 10) ++ [Nat.digitChar (n % 10)]

/-- The decimal digit string of a natural number, as Python prints it. -/
def natChars (n : Nat) : List Char :=
  if n = 0 then ['0'] else natCharsAux n n

/-- The characters of Python `str(i)` for an int `i`. -/
def intChars (i : Int) : List Char :=
  if i < 0 then '-' :: natChars i.natAbs else natChars i.toNat

/-- Python `str(i)` for an int. -/
def intStr (i : Int) : String := String.mk (intChars i)

/-- The digits-with-point part of CPython `Decimal.__str__`: when the point
lands at or before the first digit, pad with a leading zero and zeros after
the point; when it lands at or past the last digit, pad with trailing
zeros and emit no point; otherwise place the point inside the digits. -/
def decBody (digits : List Char) (dotplace : Int) : List Char :=
  if dotplace ≤ 0 then
    '0' :: '.' :: (List.replicate (-dotplace).toNat '0' ++ digits)
  else if (digits.length : Int) ≤ dotplace then
    digits ++ List.replicate (dotplace.toNat - digits.length) '0'
  else
    digits.take dotplace.toNat ++ '.' :: digits.drop dotplace.toNat

/-- The exponent suffix of CPython `Decimal.__str__`: empty in plain
notation, otherwise `E` followed by an always-signed exponent. -/
def decExpPart (leftdigits dotplace : Int) : List Char :=
  if leftdigits = dotplace then []
  else
    'E' :: (if leftdigits - dotplace < 0
      then '-' :: natChars (leftdigits - dotplace).natAbs
      else '+' :: natChars (leftdigits - dotplace).toNat)

/-- The characters of CPython `Decimal.__str__` for an amount `d` (whose
Decimal exponent `-d.exp` is never positive, so the exponent test of the
plain-notation condition always holds): place the decimal point
`leftdigits` digits in when the adjusted exponent is at least `-6`,
otherwise fall back to scientific notation with one digit before the
point. -/
def decChars (d : Dec) : List Char :=
  let digits := natChars d.num.natAbs
  let leftdigits : Int := -(d.exp : Int) + digits.length
  let dotplace : Int := if leftdigits > -6 then leftdigits else 1
  (if d.num < 0 then ['-'] else []) ++ decBody digits dotplace ++ decExpPart leftdigits dotplace

/-- Python `str(d)` (equivalently, f-string interpolation) for a Decimal
amount. -/
def decStr (d : Dec) : String := String.mk (decChars d)

/-- `write_output_file(...)` from src/python/main.py, as the content of the
report file it writes: ten sequential writes, each a field followed by a
newline.  `input_amount` and `trader_amount` are collapsed to `int` when
`is_integer()` holds; the other writes interpolate the value directly. -/
def write_output_file (txid input_address : String) (input_amount : Dec)
    (trader_address : String) (trader_amount : Dec) (change_address : String)
    (change_amount : Dec) (fee : Dec) (block_height : Int) (block_hash : String) : String :=
  (txid ++ "\n") ++
  ((input_address ++ "\n") ++
  (((if input_amount.isInteger then intStr input_amount.toIntTrunc else decStr input_amount)
      ++ "\n") ++
  ((trader_address ++ "\n") ++
  (((if trader_amount.isInteger then intStr trader_amount.toIntTrunc else decStr trader_amount)
      ++ "\n") ++
  ((change_address ++ "\n") ++
  ((decStr change_amount ++ "\n") ++
  ((decStr fee ++ "\n") ++
  ((intStr block_height ++ "\n") ++
  (block_hash ++ "\n")))))))))

/-- The wallet create-or-load loop at the top of `main`: for each wallet
name, query `listwallets` and load the wallet when present, create it
otherwise. -/
def walletSetup (client : Client) : List String → Except Err Unit
  | [] => Except.ok ()
  | w :: rest =>
    match client.listwallets with
    | Except.error e => Except.error e
    | Except.ok ws =>
      if ws.contains w then
        match client.loadwallet w with
        | Except.error e => Except.error e
        | Except.ok _ => walletSetup client rest
      else
        match client.createwallet w with
        | Except.error e => Except.error e
        | Except.ok _ => walletSetup client rest

/-- The body of the `try` block of `main` from src/python/main.py, returning
the content that `write_output_file` writes as its final step.  Every RPC
call and indexing step is sequenced in source order; any failure aborts the
chain before the write. -/
def mainTry (client : Client) : Except Err String := do
  let _blockchain_info ← client.getblockchaininfo
  walletSetup client ["Miner", "Trader"]
  let mining_reward_address ← client.getnewaddress "Miner" "Mining Reward"
  let _mined_blocks ← client.generatetoaddress 101 mining_reward_address
  let _miner_balance ← client.getbalance "Miner"
  let trader_receive_address ← client.getnewaddress "Trader" "Received"
  let txid ← client.sendtoaddress "Miner" trader_receive_address 20
  let _mempool_entry ← client.getmempoolentry txid
  let blocks ← client.generatetoaddress 1 mining_reward_address
  let confirm_block_hash ← listIdx blocks 0
  let raw_tx ← client.getrawtransaction txid
  let decoded_tx ← client.decoderawtransaction raw_tx
  let block_info ← client.getblock confirm_block_hash
  let fee ← calculate_transaction_fee client decoded_tx
  let (input_address, input_amount) ← extract_input_details client decoded_tx
  let (change_address, change_amount, trader_amount) ←
    extract_output_details decoded_tx trader_receive_address
  return write_output_file txid input_address input_amount trader_receive_address trader_amount
    change_address change_amount fee block_info.height confirm_block_hash

/-- The diagnostic printed by the two `except` branches of `main`:
`JSONRPCException` has its own message, every other error falls to the
generic catch-all. -/
def errMsg : Err → String
  | Err.jsonRpc m => "JSON-RPC Error: " ++ m
  | Err.keyError k => "Error occurred: " ++ "'" ++ k ++ "'"
  | Err.indexError => "Error occurred: list index out of range"

/-- Observable outcome of one run of `main`: the report content written, if
any, and the diagnostic printed, if any. -/
structure MainResult where
  written : Option String
  diagnostic : Option String
deriving DecidableEq, Repr

/-- `main()` from src/python/main.py: run the `try` body; on success the
report has been written and no diagnostic printed, on any error a
diagnostic is printed and nothing is written. -/
def main (client : Client) : MainResult :=
  match mainTry client with
  | Except.ok content => ⟨some content, none⟩
  | Except.error e => ⟨none, some (errMsg e)⟩

/-- Split a character list at every newline; a list ending in a newline
yields a trailing empty segment, so a file of exactly `n` newline-terminated
lines splits into those `n` lines followed by one empty segment. -/
def splitNl : List Char → List (List Char)
  | [] => [[]]
  | c :: cs =>
    if c = '\n' then [] :: splitNl cs
    else
      match splitNl cs with
      | [] => [[c]]
      | l :: ls => (c :: l) :: ls

/-- Splitting a newline-free segment followed by a newline peels off that
segment as one line. -/
theorem splitNl_append : ∀ (w rest : List Char), '\n' ∉ w →
    splitNl (w ++ '\n' :: rest) = w :: splitNl rest := by
  intro w
  induction w with
  | nil =>
    intro rest _
    simp [splitNl]
  | cons c w ih =>
    intro rest h
    have hc : ¬ c = '\n' := fun hh => h (hh ▸ List.mem_cons_self c w)
    have hw : '\n' ∉ w := fun hm => h (List.mem_cons_of_mem c hm)
    rw [List.cons_append, splitNl, if_neg hc, ih rest hw]

/-- Every character printed for a natural number is a decimal digit. -/
theorem natCharsAux_digit : ∀ (fuel n : Nat) (c : Char), c ∈ natCharsAux fuel n →
    c.isDigit = true := by
  intro fuel
  induction fuel with
  | zero =>
    intro n c h
    simp [natCharsAux] at h
  | succ fuel ih =>
    intro n c h
    by_cases hn : n = 0
    · simp [natCharsAux, hn] at h
    · simp only [natCharsAux, if_neg hn, List.mem_append, List.mem_singleton] at h
      rcases h with h | h
      · exact ih (n / 10) c h
      · subst h
        have h10 : n % 10 < 10 := Nat.mod_lt n (by norm_num)
        interval_cases hm : n % 10 <;> rfl

/-- Every character of `natChars` is a decimal digit. -/
theorem natChars_digit {n : Nat} {c : Char} (h : c ∈ natChars n) : c.isDigit = true := by
  by_cases hn : n = 0
  · simp [natChars, hn] at h
    subst h
    rfl
  · simp only [natChars, if_neg hn] at h
    exact natCharsAux_digit n n c h

/-- A newline never appears in the digits of a natural number. -/
theorem nl_not_mem_natChars (n : Nat) : '\n' ∉ natChars n := by
  intro h
  have := natChars_digit h
  exact absurd this (by decide)

/-- A newline never appears in the rendering of an int. -/
theorem nl_not_mem_intChars (i : Int) : '\n' ∉ intChars i := by
  unfold intChars
  split
  · intro h
    rcases List.mem_cons.mp h with h1 | h2
    · exact absurd h1 (by decide)
    · exact nl_not_mem_natChars _ h2
  · exact nl_not_mem_natChars _

/-- A newline never appears in the digits-with-point part. -/
theorem nl_not_mem_decBody (digits : List Char) (dotplace : Int)
    (hd : '\n' ∉ digits) : '\n' ∉ decBody digits dotplace := by
  unfold decBody
  split
  · intro h
    rcases List.mem_cons.mp h with h1 | h1
    · exact absurd h1 (by decide)
    rcases List.mem_cons.mp h1 with h2 | h2
    · exact absurd h2 (by decide)
    rcases List.mem_append.mp h2 with h3 | h3
    · exact absurd (List.eq_of_mem_replicate h3) (by decide)
    · exact hd h3
  · split
    · intro h
      rcases List.mem_append.mp h with h1 | h1
      · exact hd h1
      · exact absurd (List.eq_of_mem_replicate h1) (by decide)
    · intro h
      rcases List.mem_append.mp h with h1 | h1
      · exact hd (List.take_subset _ _ h1)
      · rcases List.mem_cons.mp h1 with h2 | h2
        · exact absurd h2 (by decide)
        · exact hd (List.drop_subset _ _ h2)

/-- A newline never appears in the exponent suffix. -/
theorem nl_not_mem_decExpPart (leftdigits dotplace : Int) :
    '\n' ∉ decExpPart leftdigits dotplace := by
  unfold decExpPart
  split
  · exact List.not_mem_nil _
  · intro h
    rcases List.mem_cons.mp h with h1 | h1
    · exact absurd h1 (by decide)
    · split at h1
      · rcases List.mem_cons.mp h1 with h2 | h2
        · exact absurd h2 (by decide)
        · exact nl_not_mem_natChars _ h2
      · rcases List.mem_cons.mp h1 with h2 | h2
        · exact absurd h2 (by decide)
        · exact nl_not_mem_natChars _ h2

/-- A newline never appears in the Decimal rendering of an amount. -/
theorem nl_not_mem_decChars (d : Dec) : '\n' ∉ decChars d := by
  simp only [decChars]
  intro h
  rcases List.mem_append.mp h with h | h
  · rcases List.mem_append.mp h with h | h
    · split at h
      · exact absurd (List.mem_singleton.mp h) (by decide)
      · exact absurd h (List.not_mem_nil _)
    · exact nl_not_mem_decBody _ _ (nl_not_mem_natChars _) h
  · exact nl_not_mem_decExpPart _ _ h

/-- A newline never appears in `intStr`. -/
theorem nl_not_mem_intStr (i : Int) : '\n' ∉ (intStr i).data :=
  nl_not_mem_intChars i

/-- A newline never appears in `decStr`. -/
theorem nl_not_mem_decStr (d : Dec) : '\n' ∉ (decStr d).data :=
  nl_not_mem_decChars d

/-- A newline never appears in a serialized amount line, whichever branch
of the integer-collapse conditional was taken. -/
theorem nl_not_mem_amountLine (d : Dec) :
    '\n' ∉ (if d.isInteger then intStr d.toIntTrunc else decStr d).data := by
  split
  · exact nl_not_mem_intStr _
  · exact nl_not_mem_decStr _

/-- The report content splits at newlines into the ten serialized fields in
their fixed order, followed by the empty segment left by the terminating
newline of the last line. -/
theorem write_output_split (txid input_address : String) (input_amount : Dec)
    (trader_address : String) (trader_amount : Dec) (change_address : String)
    (change_amount : Dec) (fee : Dec) (block_height : Int) (block_hash : String)
    (h1 : '\n' ∉ txid.data) (h2 : '\n' ∉ input_address.data)
    (h4 : '\n' ∉ trader_address.data) (h6 : '\n' ∉ change_address.data)
    (h10 : '\n' ∉ block_hash.data) :
    splitNl (write_output_file txid input_address input_amount trader_address trader_amount
        change_address change_amount fee block_height block_hash).data =
      [txid.data, input_address.data,
       (if input_amount.isInteger then intStr input_amount.toIntTrunc
        else decStr input_amount).data,
       trader_address.data,
       (if trader_amount.isInteger then intStr trader_amount.toIntTrunc
        else decStr trader_amount).data,
       change_address.data,
       (decStr change_amount).data, (decStr fee).data, (intStr block_height).data,
       block_hash.data, []] := by
  have hnl : ("\n" : String).data = ['\n'] := rfl
  simp only [write_output_file, String.data_append, hnl, List.append_assoc,
    List.singleton_append]
  rw [splitNl_append _ _ h1, splitNl_append _ _ h2,
    splitNl_append _ _ (nl_not_mem_amountLine input_amount),
    splitNl_append _ _ h4,
    splitNl_append _ _ (nl_not_mem_amountLine trader_amount),
    splitNl_append _ _ h6,
    splitNl_append _ _ (nl_not_mem_decStr change_amount),
    splitNl_append _ _ (nl_not_mem_decStr fee),
    splitNl_append _ _ (nl_not_mem_intStr block_height),
    splitNl_append _ _ h10]
  rfl

/-- The classifier's notion of a change-like output: it has an `addresses`
key and the trader address is not among the addresses. -/
def isChangeLike (trader_address : String) (o : Output) : Bool :=
  match o.scriptPubKey.addresses with
  | some addrs => !(addrs.contains trader_address)
  | none => false

/-- The last change-like output of a list, if any. -/
def lastChange (trader_address : String) : List Output → Option Output
  | [] => none
  | o :: rest =>
    match lastChange trader_address rest with
    | some o2 => some o2
    | none => if isChangeLike trader_address o then some o else none

/-- An output without an `addresses` key is a no-op of the classifier loop:
removing it from anywhere in the list leaves the result unchanged. -/
theorem extractOutputsLoop_skip (trader_address : String) (o : Output)
    (ho : o.scriptPubKey.addresses = none) :
    ∀ (pre post : List Output) (st : String × Dec × Dec),
    extractOutputsLoop trader_address (pre ++ o :: post) st =
      extractOutputsLoop trader_address (pre ++ post) st := by
  intro pre
  induction pre with
  | nil =>
    intro post st
    obtain ⟨ca, cam, ta⟩ := st
    simp [extractOutputsLoop, ho]
  | cons p pre ih =>
    intro post st
    obtain ⟨ca, cam, ta⟩ := st
    simp only [List.cons_append, extractOutputsLoop]
    cases hp : p.scriptPubKey.addresses with
    | none => simpa only [hp] using ih post (ca, cam, ta)
    | some addrs =>
      simp only [hp]
      by_cases hc : addrs.contains trader_address
      · rw [if_pos hc, if_pos hc]
        exact ih post (ca, cam, p.value)
      · rw [if_neg hc, if_neg hc]
        cases addrs with
        | nil => rfl
        | cons a as => exact ih post (a, p.value, ta)

/-- When no output's address list contains the trader address and no
present address list is empty, the loop succeeds and never touches the
trader-amount component of its state. -/
theorem extractOutputsLoop_keepTA (trader_address : String) :
    ∀ (outs : List Output) (st : String × Dec × Dec),
    (∀ o ∈ outs, ∀ l, o.scriptPubKey.addresses = some l →
      l.contains trader_address = false ∧ l ≠ []) →
    ∃ ca cam, extractOutputsLoop trader_address outs st = Except.ok (ca, cam, st.2.2) := by
  intro outs
  induction outs with
  | nil =>
    intro st _
    exact ⟨st.1, st.2.1, rfl⟩
  | cons o rest ih =>
    intro st h
    obtain ⟨ca, cam, ta⟩ := st
    cases hp : o.scriptPubKey.addresses with
    | none =>
      simp only [extractOutputsLoop, hp]
      exact ih (ca, cam, ta) (fun o' ho' => h o' (List.mem_cons_of_mem _ ho'))
    | some addrs =>
      have hol := h o (List.mem_cons_self _ _) addrs hp
      simp only [extractOutputsLoop, hp]
      rw [if_neg (by simpa using hol.1)]
      cases addrs with
      | nil => exact absurd rfl hol.2
      | cons a as =>
        exact ih (a, o.value, ta) (fun o' ho' => h o' (List.mem_cons_of_mem _ ho'))

/-- When every addressed output's address list contains the trader address,
the loop succeeds and never touches the change components of its state. -/
theorem extractOutputsLoop_noChange (trader_address : String) :
    ∀ (outs : List Output) (st : String × Dec × Dec),
    (∀ o ∈ outs, ∀ l, o.scriptPubKey.addresses = some l →
      l.contains trader_address = true) →
    ∃ ta, extractOutputsLoop trader_address outs st = Except.ok (st.1, st.2.1, ta) := by
  intro outs
  induction outs with
  | nil =>
    intro st _
    exact ⟨st.2.2, rfl⟩
  | cons o rest ih =>
    intro st h
    obtain ⟨ca, cam, ta⟩ := st
    cases hp : o.scriptPubKey.addresses with
    | none =>
      simp only [extractOutputsLoop, hp]
      exact ih (ca, cam, ta) (fun o' ho' => h o' (List.mem_cons_of_mem _ ho'))
    | some addrs =>
      simp only [extractOutputsLoop, hp]
      rw [if_pos (h o (List.mem_cons_self _ _) addrs hp)]
      exact ih (ca, cam, o.value) (fun o' ho' => h o' (List.mem_cons_of_mem _ ho'))

/-- When no present address list is empty, the loop succeeds, and its final
change components are the first address and the value of the last
change-like output (or the initial state when there is none). -/
theorem extractOutputsLoop_last (trader_address : String) :
    ∀ (outs : List Output) (st : String × Dec × Dec),
    (∀ o ∈ outs, o.scriptPubKey.addresses ≠ some []) →
    ((lastChange trader_address outs = none →
        ∃ ta, extractOutputsLoop trader_address outs st = Except.ok (st.1, st.2.1, ta)) ∧
     (∀ o, lastChange trader_address outs = some o →
        ∃ a as ta, o.scriptPubKey.addresses = some (a :: as) ∧
          extractOutputsLoop trader_address outs st = Except.ok (a, o.value, ta))) := by
  intro outs
  induction outs with
  | nil =>
    intro st _
    exact ⟨fun _ => ⟨st.2.2, rfl⟩, fun o h => Option.noConfusion h⟩
  | cons o rest ih =>
    intro st h
    obtain ⟨ca, cam, ta⟩ := st
    have htail : ∀ o' ∈ rest, o'.scriptPubKey.addresses ≠ some [] :=
      fun o' ho' => h o' (List.mem_cons_of_mem _ ho')
    cases hp : o.scriptPubKey.addresses with
    | none =>
      have hl : lastChange trader_address (o :: rest) = lastChange trader_address rest := by
        cases hlc : lastChange trader_address rest <;>
          simp [lastChange, hlc, isChangeLike, hp]
      rw [hl]
      simpa only [extractOutputsLoop, hp] using ih (ca, cam, ta) htail
    | some addrs =>
      by_cases hc : addrs.contains trader_address
      · have hcm : trader_address ∈ addrs := by simpa using hc
        have hl : lastChange trader_address (o :: rest) = lastChange trader_address rest := by
          cases hlc : lastChange trader_address rest <;>
            simp [lastChange, hlc, isChangeLike, hp, hcm]
        rw [hl]
        have := ih (ca, cam, o.value) htail
        simpa only [extractOutputsLoop, hp, if_pos hc] using this
      · have hcm : trader_address ∉ addrs := by simpa using hc
        cases addrs with
        | nil => exact absurd hp (h o (List.mem_cons_self _ _))
        | cons a as =>
          have hstep : extractOutputsLoop trader_address (o :: rest) (ca, cam, ta) =
              extractOutputsLoop trader_address rest (a, o.value, ta) := by
            simp only [extractOutputsLoop, hp]
            rw [if_neg hc]
          constructor
          · intro hnone
            exfalso
            cases hlc : lastChange trader_address rest <;>
              simp [lastChange, hlc, isChangeLike, hp, hcm] at hnone
          · intro o2 hsome
            cases hlc : lastChange trader_address rest with
            | some o3 =>
              have ho23 : o3 = o2 := by
                simpa [lastChange, hlc] using hsome
              subst ho23
              rw [hstep]
              exact (ih (a, o.value, ta) htail).2 o3 hlc
            | none =>
              have ho2 : o = o2 := by
                simpa [lastChange, hlc, isChangeLike, hp, hcm] using hsome
              subst ho2
              rw [hstep]
              obtain ⟨ta', hta'⟩ := (ih (a, o.value, ta) htail).1 hlc
              exact ⟨a, as, ta', hp, hta'⟩

/-- A list with no change-like output has no last change-like output. -/
theorem lastChange_eq_none (trader_address : String) :
    ∀ outs : List Output, (∀ o ∈ outs, isChangeLike trader_address o = false) →
    lastChange trader_address outs = none := by
  intro outs
  induction outs with
  | nil => intro _; rfl
  | cons o rest ih =>
    intro h
    have hrest := ih (fun o' ho' => h o' (List.mem_cons_of_mem _ ho'))
    simp [lastChange, hrest, h o (List.mem_cons_self _ _)]

/-- Reduction of an Except bind on a success. -/
theorem okBind {α β : Type} (a : α) (f : α → Except Err β) :
    (Except.ok a >>= f) = f a := rfl

/-- Reduction of an Except bind on an error. -/
theorem errBind {α β : Type} (e : Err) (f : α → Except Err β) :
    ((Except.error e : Except Err α) >>= f) = Except.error e := rfl

/-- A node oracle with inert defaults, specialized per scenario below. -/
def stubClient : Client where
  getblockchaininfo := Except.ok "chaininfo"
  listwallets := Except.ok []
  loadwallet := fun _ => Except.ok "loaded"
  createwallet := fun w => Except.ok w
  getnewaddress := fun w _ => Except.ok ("addr-" ++ w)
  generatetoaddress := fun _ _ => Except.ok ["bh"]
  getbalance := fun _ => Except.ok ⟨5000000000, 8⟩
  sendtoaddress := fun _ _ _ => Except.ok "txSend"
  getmempoolentry := fun _ => Except.ok "mempoolentry"
  getrawtransaction := fun _ =>
    Except.error (Err.jsonRpc "No such mempool or blockchain transaction")
  decoderawtransaction := fun _ => Except.error (Err.jsonRpc "TX decode failed")
  getblock := fun _ => Except.ok ⟨102⟩

/-- Node oracle for the fee counterexample: one prior transaction `prev1`
whose output 0 carries value 50. -/
def clientC1 : Client :=
  { stubClient with
    getrawtransaction := fun t =>
      if t = "prev1" then Except.ok "rawprev1"
      else Except.error (Err.jsonRpc "No such mempool or blockchain transaction"),
    decoderawtransaction := fun r =>
      if r = "rawprev1" then Except.ok ⟨[], [⟨⟨50, 0⟩, ⟨some ["addrIn"]⟩⟩]⟩
      else Except.error (Err.jsonRpc "TX decode failed") }

/-- Transaction for the fee counterexample: one input spending `prev1`
output 0 (resolved amount 50), one declared output of value 49.9. -/
def txC1 : Transaction := ⟨[⟨"prev1", 0⟩], [⟨⟨499, 1⟩, ⟨some ["addrOut"]⟩⟩]⟩

/-- C1: the fee calculation does NOT return input-sum minus output-sum.  At
a transaction whose single input resolves to amount 50 and whose single
output declares 49.9, `calculate_transaction_fee` returns the amount −0.1,
the negation of the claimed value 0.1: the code computes
`total_output - total_input`. -/
theorem calculate_transaction_fee_sign_flipped :
    calculate_transaction_fee clientC1 txC1 = Except.ok ⟨-1, 1⟩ ∧
    Dec.val ⟨-1, 1⟩ = -(1 / 10 : ℚ) ∧
    Dec.val ⟨50, 0⟩ - Dec.val ⟨499, 1⟩ = (1 / 10 : ℚ) ∧
    -(1 / 10 : ℚ) ≠ (1 / 10 : ℚ) := by
  refine ⟨rfl, ?_, ?_, ?_⟩
  · norm_num [Dec.val]
  · norm_num [Dec.val]
  · norm_num

/-- C2: when the first input's prior transaction fetches and decodes, and
the referenced output exists with a non-empty address list, input
resolution returns exactly that output's first address and its value. -/
theorem extract_input_details_first_input (client : Client) (decoded_tx : Transaction)
    (v : Vin) (vins : List Vin) (raw : String) (prev : Transaction) (out : Output)
    (a : String) (rest : List String)
    (hvin : decoded_tx.vin = v :: vins)
    (hraw : client.getrawtransaction v.txid = Except.ok raw)
    (hdec : client.decoderawtransaction raw = Except.ok prev)
    (hout : listIdx prev.vout v.vout = Except.ok out)
    (haddr : out.scriptPubKey.addresses = some (a :: rest)) :
    extract_input_details client decoded_tx = Except.ok (a, out.value) := by
  simp only [extract_input_details, hvin, hraw, hdec, hout, haddr]

/-- Node oracle for the end-to-end resolution scenario of the spec: `t1`
decodes to a transaction whose output 0 is address `addr1`, value 50. -/
def clientC2 : Client :=
  { stubClient with
    getrawtransaction := fun t =>
      if t = "t1" then Except.ok "rawt1"
      else Except.error (Err.jsonRpc "No such mempool or blockchain transaction"),
    decoderawtransaction := fun r =>
      if r = "rawt1" then Except.ok ⟨[], [⟨⟨50, 0⟩, ⟨some ["addr1"]⟩⟩]⟩
      else Except.error (Err.jsonRpc "TX decode failed") }

/-- Transaction whose first input references `(t1, 0)`. -/
def txC2 : Transaction := ⟨[⟨"t1", 0⟩], []⟩

/-- Evaluation of input resolution at the spec's end-to-end scenario:
input referencing `(t1, 0)` with `t1` output 0 = `(addr1, 50)` resolves to
`(addr1, 50)`. -/
theorem extract_input_details_first_input_witness :
    extract_input_details clientC2 txC2 = Except.ok ("addr1", ⟨50, 0⟩) :=
  extract_input_details_first_input clientC2 txC2 ⟨"t1", 0⟩ [] "rawt1"
    ⟨[], [⟨⟨50, 0⟩, ⟨some ["addr1"]⟩⟩]⟩ ⟨⟨50, 0⟩, ⟨some ["addr1"]⟩⟩ "addr1" []
    rfl rfl rfl rfl rfl

/-- C3: when the referenced prior output has no address set, input
resolution fails (with the address-lookup error surfaced by the catch-all)
instead of returning a resolved input. -/
theorem extract_input_details_no_address_fails (client : Client) (decoded_tx : Transaction)
    (v : Vin) (vins : List Vin) (raw : String) (prev : Transaction) (out : Output)
    (hvin : decoded_tx.vin = v :: vins)
    (hraw : client.getrawtransaction v.txid = Except.ok raw)
    (hdec : client.decoderawtransaction raw = Except.ok prev)
    (hout : listIdx prev.vout v.vout = Except.ok out)
    (haddr : out.scriptPubKey.addresses = none) :
    extract_input_details client decoded_tx = Except.error (Err.keyError "addresses") := by
  simp only [extract_input_details, hvin, hraw, hdec, hout, haddr]

/-- Node oracle whose prior transaction's output 0 has no address set. -/
def clientC3 : Client :=
  { stubClient with
    getrawtransaction := fun t =>
      if t = "t1" then Except.ok "rawt1"
      else Except.error (Err.jsonRpc "No such mempool or blockchain transaction"),
    decoderawtransaction := fun r =>
      if r = "rawt1" then Except.ok ⟨[], [⟨⟨50, 0⟩, ⟨none⟩⟩]⟩
      else Except.error (Err.jsonRpc "TX decode failed") }

/-- Evaluation of input resolution at a prior output carrying no address
set: the result is the address-lookup failure. -/
theorem extract_input_details_no_address_fails_witness :
    extract_input_details clientC3 txC2 = Except.error (Err.keyError "addresses") :=
  extract_input_details_no_address_fails clientC3 txC2 ⟨"t1", 0⟩ [] "rawt1"
    ⟨[], [⟨⟨50, 0⟩, ⟨none⟩⟩]⟩ ⟨⟨50, 0⟩, ⟨none⟩⟩ rfl rfl rfl rfl rfl

/-- C4: the report content consists of exactly the ten serialized fields in
the fixed order txid, input_address, input_amount, recipient_address,
recipient_amount, change_address, change_amount, fee, block_height,
block_hash, each line newline-terminated, with nothing after the last
newline. -/
theorem write_output_file_ten_lines (txid input_address : String) (input_amount : Dec)
    (trader_address : String) (trader_amount : Dec) (change_address : String)
    (change_amount : Dec) (fee : Dec) (block_height : Int) (block_hash : String)
    (h1 : '\n' ∉ txid.data) (h2 : '\n' ∉ input_address.data)
    (h4 : '\n' ∉ trader_address.data) (h6 : '\n' ∉ change_address.data)
    (h10 : '\n' ∉ block_hash.data) :
    splitNl (write_output_file txid input_address input_amount trader_address trader_amount
        change_address change_amount fee block_height block_hash).data =
      [txid.data, input_address.data,
       (if input_amount.isInteger then intStr input_amount.toIntTrunc
        else decStr input_amount).data,
       trader_address.data,
       (if trader_amount.isInteger then intStr trader_amount.toIntTrunc
        else decStr trader_amount).data,
       change_address.data,
       (decStr change_amount).data, (decStr fee).data, (intStr block_height).data,
       block_hash.data, []] :=
  write_output_split txid input_address input_amount trader_address trader_amount
    change_address change_amount fee block_height block_hash h1 h2 h4 h6 h10

/-- Evaluation of the report layout at a concrete reconciliation: ten
newline-terminated lines in the fixed field order and nothing more. -/
theorem write_output_file_ten_lines_witness :
    splitNl (write_output_file "t0" "ia" ⟨2000000000, 8⟩ "ra" ⟨7999878, 5⟩ "ca"
        ⟨4999998590, 8⟩ ⟨-1, 1⟩ 102 "bh").data =
      ["t0".data, "ia".data, "20".data, "ra".data, "79.99878".data, "ca".data,
       "49.99998590".data, "-0.1".data, "102".data, "bh".data, []] :=
  write_output_file_ten_lines "t0" "ia" ⟨2000000000, 8⟩ "ra" ⟨7999878, 5⟩ "ca"
    ⟨4999998590, 8⟩ ⟨-1, 1⟩ 102 "bh"
    (by decide) (by decide) (by decide) (by decide) (by decide)

/-- C5 counterexample: a whole change amount of 20 (carried with eight
fractional digits, as node values are) is written as `20.00000000` — with a
decimal point and fractional part — in the change_amount line, not as `20`:
the integer-collapse is not applied to change_amount. -/
theorem write_output_file_change_not_collapsed :
    Dec.isInteger ⟨2000000000, 8⟩ = true ∧
    (splitNl (write_output_file "t0" "ia" ⟨2000000000, 8⟩ "ra" ⟨2000000000, 8⟩ "ca"
        ⟨2000000000, 8⟩ ⟨-1, 1⟩ 102 "bh").data)[6]? = some "20.00000000".data ∧
    "20.00000000".data ≠ "20".data := by
  refine ⟨rfl, ?_, by decide⟩
  rw [write_output_split "t0" "ia" ⟨2000000000, 8⟩ "ra" ⟨2000000000, 8⟩ "ca"
    ⟨2000000000, 8⟩ ⟨-1, 1⟩ 102 "bh" (by decide) (by decide) (by decide) (by decide)
    (by decide)]
  rfl

/-- C5 amended: in the written report, the input_amount and
recipient_amount lines are integer-collapsed exactly when whole and
otherwise carry the natural decimal rendering, while the change_amount and
fee lines always carry the natural decimal rendering with no collapse. -/
theorem write_output_file_amount_formats (txid input_address : String) (input_amount : Dec)
    (trader_address : String) (trader_amount : Dec) (change_address : String)
    (change_amount : Dec) (fee : Dec) (block_height : Int) (block_hash : String)
    (h1 : '\n' ∉ txid.data) (h2 : '\n' ∉ input_address.data)
    (h4 : '\n' ∉ trader_address.data) (h6 : '\n' ∉ change_address.data)
    (h10 : '\n' ∉ block_hash.data) :
    (splitNl (write_output_file txid input_address input_amount trader_address trader_amount
        change_address change_amount fee block_height block_hash).data)[2]? =
      some (if input_amount.isInteger then intStr input_amount.toIntTrunc
        else decStr input_amount).data ∧
    (splitNl (write_output_file txid input_address input_amount trader_address trader_amount
        change_address change_amount fee block_height block_hash).data)[4]? =
      some (if trader_amount.isInteger then intStr trader_amount.toIntTrunc
        else decStr trader_amount).data ∧
    (splitNl (write_output_file txid input_address input_amount trader_address trader_amount
        change_address change_amount fee block_height block_hash).data)[6]? =
      some (decStr change_amount).data ∧
    (splitNl (write_output_file txid input_address input_amount trader_address trader_amount
        change_address change_amount fee block_height block_hash).data)[7]? =
      some (decStr fee).data := by
  rw [write_output_split txid input_address input_amount trader_address trader_amount
    change_address change_amount fee block_height block_hash h1 h2 h4 h6 h10]
  exact ⟨rfl, rfl, rfl, rfl⟩

/-- Evaluation of the amount formatting at a concrete report: a whole
input amount 20 collapses to `20`, a non-whole recipient amount prints as
`79.99878`, a whole change amount stays `20.00000000`, and the fee keeps
its computed decimal form `-0.1`. -/
theorem write_output_file_amount_formats_witness :
    (splitNl (write_output_file "t0" "ia" ⟨2000000000, 8⟩ "ra" ⟨7999878, 5⟩ "ca"
        ⟨2000000000, 8⟩ ⟨-1, 1⟩ 102 "bh").data)[2]? = some "20".data ∧
    (splitNl (write_output_file "t0" "ia" ⟨2000000000, 8⟩ "ra" ⟨7999878, 5⟩ "ca"
        ⟨2000000000, 8⟩ ⟨-1, 1⟩ 102 "bh").data)[4]? = some "79.99878".data ∧
    (splitNl (write_output_file "t0" "ia" ⟨2000000000, 8⟩ "ra" ⟨7999878, 5⟩ "ca"
        ⟨2000000000, 8⟩ ⟨-1, 1⟩ 102 "bh").data)[6]? = some "20.00000000".data ∧
    (splitNl (write_output_file "t0" "ia" ⟨2000000000, 8⟩ "ra" ⟨7999878, 5⟩ "ca"
        ⟨2000000000, 8⟩ ⟨-1, 1⟩ 102 "bh").data)[7]? = some "-0.1".data :=
  write_output_file_amount_formats "t0" "ia" ⟨2000000000, 8⟩ "ra" ⟨7999878, 5⟩ "ca"
    ⟨2000000000, 8⟩ ⟨-1, 1⟩ 102 "bh"
    (by decide) (by decide) (by decide) (by decide) (by decide)

/-- Output list with three change-like outputs relative to recipient `A`,
the middle one with an empty address set. -/
def outsC6 : List Output :=
  [⟨⟨11, 0⟩, ⟨some ["C"]⟩⟩, ⟨⟨12, 0⟩, ⟨some []⟩⟩, ⟨⟨13, 0⟩, ⟨some ["B"]⟩⟩]

/-- C6 counterexample: with recipient `A` this list has more than one
addressed output whose address set lacks `A`, and the last of them carries
first address `B` and value 13; yet the classifier raises IndexError at
the empty address set instead of returning the last one's address and
value. -/
theorem extract_output_details_last_wins_fails :
    1 < List.countP (fun o => isChangeLike "A" o) outsC6 ∧
    lastChange "A" outsC6 = some ⟨⟨13, 0⟩, ⟨some ["B"]⟩⟩ ∧
    extract_output_details ⟨[], outsC6⟩ "A" = Except.error Err.indexError :=
  ⟨by decide, rfl, rfl⟩

/-- C6 amended: when more than one change-like output exists and every
address set present in the output list is non-empty, the classifier
returns the first address and the value of the LAST change-like output. -/
theorem extract_output_details_last_wins (decoded_tx : Transaction)
    (trader_address : String) (o : Output)
    (_hmany : 1 < List.countP (fun o => isChangeLike trader_address o) decoded_tx.vout)
    (hne : ∀ o2 ∈ decoded_tx.vout, o2.scriptPubKey.addresses ≠ some [])
    (hlast : lastChange trader_address decoded_tx.vout = some o) :
    ∃ a rest ta, o.scriptPubKey.addresses = some (a :: rest) ∧
      extract_output_details decoded_tx trader_address = Except.ok (a, o.value, ta) :=
  (extractOutputsLoop_last trader_address decoded_tx.vout ("", Dec.ofInt 0, Dec.ofInt 0)
    hne).2 o hlast

/-- Evaluation of last-change-wins at a list with two non-empty change-like
outputs: the classifier reports the second one's address and value. -/
theorem extract_output_details_last_wins_witness :
    ∃ a rest ta,
      (⟨⟨32, 0⟩, ⟨some ["C"]⟩⟩ : Output).scriptPubKey.addresses = some (a :: rest) ∧
      extract_output_details
          ⟨[], [⟨⟨20, 0⟩, ⟨some ["A"]⟩⟩, ⟨⟨31, 0⟩, ⟨some ["B"]⟩⟩, ⟨⟨32, 0⟩, ⟨some ["C"]⟩⟩]⟩
          "A" = Except.ok (a, (⟨⟨32, 0⟩, ⟨some ["C"]⟩⟩ : Output).value, ta) :=
  extract_output_details_last_wins
    ⟨[], [⟨⟨20, 0⟩, ⟨some ["A"]⟩⟩, ⟨⟨31, 0⟩, ⟨some ["B"]⟩⟩, ⟨⟨32, 0⟩, ⟨some ["C"]⟩⟩]⟩
    "A" ⟨⟨32, 0⟩, ⟨some ["C"]⟩⟩ (by decide) (by decide) rfl

/-- C7: an output carrying no address field is skipped entirely: the
classifier result on any output list containing it is identical to the
result on the list with that output removed, and no error is raised on its
account. -/
theorem extract_output_details_skips_addressless (trader_address : String)
    (vin : List Vin) (pre post : List Output) (o : Output)
    (ho : o.scriptPubKey.addresses = none) :
    extract_output_details ⟨vin, pre ++ o :: post⟩ trader_address =
      extract_output_details ⟨vin, pre ++ post⟩ trader_address :=
  extractOutputsLoop_skip trader_address o ho pre post ("", Dec.ofInt 0, Dec.ofInt 0)

/-- Evaluation of the skip behavior at a concrete list: inserting a
data-carrier output between two addressed outputs leaves the classifier
result unchanged. -/
theorem extract_output_details_skips_addressless_witness :
    extract_output_details
        ⟨[], [⟨⟨20, 0⟩, ⟨some ["A"]⟩⟩] ++ ⟨⟨7, 0⟩, ⟨none⟩⟩ :: [⟨⟨31, 0⟩, ⟨some ["B"]⟩⟩]⟩
        "A" =
      extract_output_details ⟨[], [⟨⟨20, 0⟩, ⟨some ["A"]⟩⟩] ++ [⟨⟨31, 0⟩, ⟨some ["B"]⟩⟩]⟩
        "A" :=
  extract_output_details_skips_addressless "A" [] [⟨⟨20, 0⟩, ⟨some ["A"]⟩⟩]
    [⟨⟨31, 0⟩, ⟨some ["B"]⟩⟩] ⟨⟨7, 0⟩, ⟨none⟩⟩ rfl

/-- Output list whose only output has an empty address set. -/
def outsC8 : List Output := [⟨⟨1, 0⟩, ⟨some []⟩⟩]

/-- C8 counterexample: no output's address set contains the recipient `A`
(the only address set is empty), yet the classifier raises IndexError
instead of returning a triple with recipient amount zero. -/
theorem extract_output_details_no_match_fails :
    (outsC8.all fun o => !((o.scriptPubKey.addresses.getD []).contains "A")) = true ∧
    extract_output_details ⟨[], outsC8⟩ "A" = Except.error Err.indexError :=
  ⟨rfl, rfl⟩

/-- C8 amended: when no output's address set contains the recipient and
every present address set is non-empty, the classifier succeeds and its
recipient amount is exactly zero. -/
theorem extract_output_details_no_match_zero (decoded_tx : Transaction)
    (trader_address : String)
    (h : ∀ o ∈ decoded_tx.vout, ∀ l, o.scriptPubKey.addresses = some l →
      l.contains trader_address = false ∧ l ≠ []) :
    ∃ ca cam, extract_output_details decoded_tx trader_address =
      Except.ok (ca, cam, Dec.ofInt 0) :=
  extractOutputsLoop_keepTA trader_address decoded_tx.vout ("", Dec.ofInt 0, Dec.ofInt 0) h

/-- Evaluation of the zero-recipient case at a list whose only addressed
output pays a different address. -/
theorem extract_output_details_no_match_zero_witness :
    ∃ ca cam, extract_output_details ⟨[], [⟨⟨5, 0⟩, ⟨some ["B"]⟩⟩]⟩ "A" =
      Except.ok (ca, cam, Dec.ofInt 0) :=
  extract_output_details_no_match_zero ⟨[], [⟨⟨5, 0⟩, ⟨some ["B"]⟩⟩]⟩ "A" (by decide)

/-- C10: when every addressed output's address set contains the recipient
(so no output is change-like), the classifier returns the empty string for
change_address and zero for change_amount, and the report written from that
result has an empty sixth line, the change_address position. -/
theorem extract_output_details_no_change_defaults (decoded_tx : Transaction)
    (trader_address : String)
    (h : ∀ o ∈ decoded_tx.vout, ∀ l, o.scriptPubKey.addresses = some l →
      l.contains trader_address = true)
    (txid input_address : String) (input_amount trader_amount fee : Dec)
    (block_height : Int) (block_hash : String)
    (h1 : '\n' ∉ txid.data) (h2 : '\n' ∉ input_address.data)
    (h4 : '\n' ∉ trader_address.data) (h10 : '\n' ∉ block_hash.data) :
    (∃ ta, extract_output_details decoded_tx trader_address =
        Except.ok ("", Dec.ofInt 0, ta)) ∧
    (splitNl (write_output_file txid input_address input_amount trader_address trader_amount
        "" (Dec.ofInt 0) fee block_height block_hash).data)[5]? = some [] := by
  constructor
  · exact extractOutputsLoop_noChange trader_address decoded_tx.vout
      ("", Dec.ofInt 0, Dec.ofInt 0) h
  · rw [write_output_split txid input_address input_amount trader_address trader_amount ""
      (Dec.ofInt 0) fee block_height block_hash h1 h2 h4 (by decide) h10]
    rfl

/-- Evaluation of the no-change case: a single output paid to the recipient
leaves the change defaults, and the corresponding report's sixth line is
empty. -/
theorem extract_output_details_no_change_defaults_witness :
    (∃ ta, extract_output_details ⟨[], [⟨⟨20, 0⟩, ⟨some ["A"]⟩⟩]⟩ "A" =
        Except.ok ("", Dec.ofInt 0, ta)) ∧
    (splitNl (write_output_file "t0" "ia" ⟨50, 0⟩ "A" ⟨20, 0⟩ "" (Dec.ofInt 0)
        ⟨-1, 1⟩ 102 "bh").data)[5]? = some [] :=
  extract_output_details_no_change_defaults ⟨[], [⟨⟨20, 0⟩, ⟨some ["A"]⟩⟩]⟩ "A"
    (by decide) "t0" "ia" ⟨50, 0⟩ ⟨20, 0⟩ ⟨-1, 1⟩ 102 "bh"
    (by decide) (by decide) (by decide) (by decide)

/-- C9: when the pipeline reaches input resolution and the fee
calculation's fetch of the first input's prior txid fails (a non-existent
prior transaction), the run prints the corresponding diagnostic and
terminates with no report content produced: the write step, last in
`mainTry`, is never reached. -/
theorem main_no_write_on_resolution_error (client : Client)
    (info mining_reward_address trader_receive_address txid : String)
    (blocks101 : List String) (bal : Dec) (mp : String)
    (confirm_block_hash : String) (bRest : List String)
    (raw : String) (decoded_tx : Transaction) (blk : Block)
    (v : Vin) (vins : List Vin) (e : Err)
    (hinfo : client.getblockchaininfo = Except.ok info)
    (hW : walletSetup client ["Miner", "Trader"] = Except.ok ())
    (haddrM : client.getnewaddress "Miner" "Mining Reward" =
      Except.ok mining_reward_address)
    (hgen101 : client.generatetoaddress 101 mining_reward_address = Except.ok blocks101)
    (hbal : client.getbalance "Miner" = Except.ok bal)
    (haddrT : client.getnewaddress "Trader" "Received" = Except.ok trader_receive_address)
    (hsend : client.sendtoaddress "Miner" trader_receive_address 20 = Except.ok txid)
    (hmp : client.getmempoolentry txid = Except.ok mp)
    (hgen1 : client.generatetoaddress 1 mining_reward_address =
      Except.ok (confirm_block_hash :: bRest))
    (hraw : client.getrawtransaction txid = Except.ok raw)
    (hdec : client.decoderawtransaction raw = Except.ok decoded_tx)
    (hblk : client.getblock confirm_block_hash = Except.ok blk)
    (hvin : decoded_tx.vin = v :: vins)
    (herr : client.getrawtransaction v.txid = Except.error e) :
    (main client).written = none ∧ (main client).diagnostic = some (errMsg e) := by
  have hfee : calculate_transaction_fee client decoded_tx = Except.error e := by
    simp only [calculate_transaction_fee, hvin, feeInputLoop, herr]
  have htry : mainTry client = Except.error e := by
    simp only [mainTry, hinfo, hW, haddrM, hgen101, hbal, haddrT, hsend, hmp, hgen1,
      hraw, hdec, hblk, hfee, listIdx, okBind, errBind]
  exact ⟨by simp [main, htry], by simp [main, htry]⟩

/-- Node oracle for the error scenario: the pipeline succeeds through
decoding the confirmed transaction, but that transaction's first input
references `txPrev`, which the node cannot fetch. -/
def clientC9 : Client :=
  { stubClient with
    getrawtransaction := fun t =>
      if t = "txSend" then Except.ok "rawSend"
      else Except.error (Err.jsonRpc "No such mempool or blockchain transaction"),
    decoderawtransaction := fun r =>
      if r = "rawSend" then Except.ok ⟨[⟨"txPrev", 0⟩], []⟩
      else Except.error (Err.jsonRpc "TX decode failed") }

/-- Evaluation of the error scenario: with the prior transaction missing,
the run writes nothing and prints the JSON-RPC diagnostic. -/
theorem main_no_write_on_resolution_error_witness :
    (main clientC9).written = none ∧
    (main clientC9).diagnostic =
      some (errMsg (Err.jsonRpc "No such mempool or blockchain transaction")) :=
  main_no_write_on_resolution_error clientC9 "chaininfo" "addr-Miner" "addr-Trader"
    "txSend" ["bh"] ⟨5000000000, 8⟩ "mempoolentry" "bh" [] "rawSend"
    ⟨[⟨"txPrev", 0⟩], []⟩ ⟨102⟩ ⟨"txPrev", 0⟩ []
    (Err.jsonRpc "No such mempool or blockchain transaction")
    rfl rfl rfl rfl rfl rfl rfl rfl rfl rfl rfl rfl rfl rfl

end Recon
